import Mathlib

/-!
# Verification of `native/include/android/input.h`

The header is a frozen table of integer constants together with the
declarations of the event accessors.  C `int` / `int32_t` values are embedded
as `Int`; the C operators `&`, `|`, `<<`, `>>` are `Int.land`, `Int.lor`,
`<<<`, `>>>` (two's complement, so they agree with the 32-bit operators on
every value that fits in 32 bits).
-/

namespace AndroidInput

/-! ## Motion event actions (input.h, lines 214-270) -/

/-- Bit shift for the action bits holding the pointer index
(`#define MOTION_EVENT_ACTION_POINTER_INDEX_SHIFT 8`). -/
def MOTION_EVENT_ACTION_POINTER_INDEX_SHIFT : Int := 8

/-- Bit mask of the parts of the action code that are the action itself. -/
def MOTION_EVENT_ACTION_MASK : Int := 0xff

/-- Bits in the action code that represent a pointer index. -/
def MOTION_EVENT_ACTION_POINTER_INDEX_MASK : Int := 0xff00

def MOTION_EVENT_ACTION_DOWN : Int := 0

def MOTION_EVENT_ACTION_UP : Int := 1

def MOTION_EVENT_ACTION_MOVE : Int := 2

def MOTION_EVENT_ACTION_CANCEL : Int := 3

def MOTION_EVENT_ACTION_OUTSIDE : Int := 4

def MOTION_EVENT_ACTION_POINTER_DOWN : Int := 5

def MOTION_EVENT_ACTION_POINTER_UP : Int := 6

/-- The seven named actions of the motion action enum, in declaration order
(the two masks that open the enum are not actions). -/
def motionEventActions : List Int :=
  [MOTION_EVENT_ACTION_DOWN, MOTION_EVENT_ACTION_UP, MOTION_EVENT_ACTION_MOVE,
   MOTION_EVENT_ACTION_CANCEL, MOTION_EVENT_ACTION_OUTSIDE,
   MOTION_EVENT_ACTION_POINTER_DOWN, MOTION_EVENT_ACTION_POINTER_UP]

/-- The packing the header documents for POINTER_DOWN / POINTER_UP codes:
`(pointer_index << MOTION_EVENT_ACTION_POINTER_INDEX_SHIFT) | action`. -/
def packAction (p a : Int) : Int :=
  Int.lor (p <<< MOTION_EVENT_ACTION_POINTER_INDEX_SHIFT) a

/-- The action part of a combined code: `code & MOTION_EVENT_ACTION_MASK`. -/
def actionOf (c : Int) : Int :=
  Int.land c MOTION_EVENT_ACTION_MASK

/-- The pointer index of a combined code:
`(code & MOTION_EVENT_ACTION_POINTER_INDEX_MASK) >> MOTION_EVENT_ACTION_POINTER_INDEX_SHIFT`. -/
def pointerIndexOf (c : Int) : Int :=
  (Int.land c MOTION_EVENT_ACTION_POINTER_INDEX_MASK) >>> MOTION_EVENT_ACTION_POINTER_INDEX_SHIFT

/-! ## Input device classes (input.h, lines 50-71) -/

def INPUT_DEVICE_CLASS_KEYBOARD : Int := 0x00000001

def INPUT_DEVICE_CLASS_ALPHAKEY : Int := 0x00000002

def INPUT_DEVICE_CLASS_TOUCHSCREEN : Int := 0x00000004

def INPUT_DEVICE_CLASS_TRACKBALL : Int := 0x00000008

def INPUT_DEVICE_CLASS_TOUCHSCREEN_MT : Int := 0x00000010

def INPUT_DEVICE_CLASS_DPAD : Int := 0x00000020

/-- The six enumerators of the device class enum, in declaration order. -/
inductive DeviceClass where
  | keyboard
  | alphakey
  | touchscreen
  | trackball
  | touchscreenMt
  | dpad
  deriving DecidableEq, Repr

/-- The constant the header gives to a device class. -/
def DeviceClass.value : DeviceClass → Int
  | .keyboard => INPUT_DEVICE_CLASS_KEYBOARD
  | .alphakey => INPUT_DEVICE_CLASS_ALPHAKEY
  | .touchscreen => INPUT_DEVICE_CLASS_TOUCHSCREEN
  | .trackball => INPUT_DEVICE_CLASS_TRACKBALL
  | .touchscreenMt => INPUT_DEVICE_CLASS_TOUCHSCREEN_MT
  | .dpad => INPUT_DEVICE_CLASS_DPAD

/-- The position of the bit a device class constant occupies (used to read a
class back out of a mask). -/
def DeviceClass.bitIndex : DeviceClass → Nat
  | .keyboard => 0
  | .alphakey => 1
  | .touchscreen => 2
  | .trackball => 3
  | .touchscreenMt => 4
  | .dpad => 5

/-- The bitwise OR of the constants of a collection of device classes, as in
`INPUT_DEVICE_CLASS_KEYBOARD | INPUT_DEVICE_CLASS_DPAD`; the collection is a
list, so repetitions and any order are allowed. -/
def deviceClassMask (l : List DeviceClass) : Int :=
  l.foldl (fun acc c => Int.lor acc c.value) 0

/-! ## Key states (input.h, lines 73-91) -/

def KEY_STATE_UNKNOWN : Int := -1

def KEY_STATE_UP : Int := 0

def KEY_STATE_DOWN : Int := 1

def KEY_STATE_VIRTUAL : Int := 2

/-- The four key states, in declaration order. -/
def keyStates : List Int :=
  [KEY_STATE_UNKNOWN, KEY_STATE_UP, KEY_STATE_DOWN, KEY_STATE_VIRTUAL]

/-- Whether a value is representable as a 32-bit signed integer. -/
def isInt32 (x : Int) : Prop := -2 ^ 31 ≤ x ∧ x < 2 ^ 31

instance (x : Int) : Decidable (isInt32 x) :=
  inferInstanceAs (Decidable (-2 ^ 31 ≤ x ∧ x < 2 ^ 31))

/-- The 32-bit two's complement bit pattern of a C `int`, as an unsigned value. -/
def int32Bits (x : Int) : Int := x % 2 ^ 32

/-! ## Meta key / modifier state (input.h, lines 93-120) -/

def META_NONE : Int := 0

def META_ALT_ON : Int := 0x02

def META_ALT_LEFT_ON : Int := 0x10

def META_ALT_RIGHT_ON : Int := 0x20

def META_SHIFT_ON : Int := 0x01

def META_SHIFT_LEFT_ON : Int := 0x40

def META_SHIFT_RIGHT_ON : Int := 0x80

def META_SYM_ON : Int := 0x04

/-- The seven non-zero meta state masks, in declaration order. -/
def metaMasks : List Int :=
  [META_ALT_ON, META_ALT_LEFT_ON, META_ALT_RIGHT_ON, META_SHIFT_ON,
   META_SHIFT_LEFT_ON, META_SHIFT_RIGHT_ON, META_SYM_ON]

/-- The test the header's comments describe for a meta state mask:
`(state & mask) != 0`. -/
def metaTest (state mask : Int) : Bool :=
  Int.land state mask != 0

/-! ## Key event actions (input.h, lines 142-157) -/

def KEY_EVENT_ACTION_DOWN : Int := 0

def KEY_EVENT_ACTION_UP : Int := 1

def KEY_EVENT_ACTION_MULTIPLE : Int := 2

/-- The three key event actions, in declaration order. -/
def keyEventActions : List Int :=
  [KEY_EVENT_ACTION_DOWN, KEY_EVENT_ACTION_UP, KEY_EVENT_ACTION_MULTIPLE]

/-! ## Key event flags (input.h, lines 159-212) -/

def KEY_EVENT_FLAG_WOKE_HERE : Int := 0x1

def KEY_EVENT_FLAG_SOFT_KEYBOARD : Int := 0x2

def KEY_EVENT_FLAG_KEEP_TOUCH_MODE : Int := 0x4

def KEY_EVENT_FLAG_FROM_SYSTEM : Int := 0x8

def KEY_EVENT_FLAG_EDITOR_ACTION : Int := 0x10

def KEY_EVENT_FLAG_CANCELED : Int := 0x20

def KEY_EVENT_FLAG_VIRTUAL_HARD_KEY : Int := 0x40

def KEY_EVENT_FLAG_LONG_PRESS : Int := 0x80

def KEY_EVENT_FLAG_CANCELED_LONG_PRESS : Int := 0x100

def KEY_EVENT_FLAG_TRACKING : Int := 0x200

/-- Every enumerator of the key event flag enum, in declaration order. -/
def keyEventFlags : List Int :=
  [KEY_EVENT_FLAG_WOKE_HERE, KEY_EVENT_FLAG_SOFT_KEYBOARD, KEY_EVENT_FLAG_KEEP_TOUCH_MODE,
   KEY_EVENT_FLAG_FROM_SYSTEM, KEY_EVENT_FLAG_EDITOR_ACTION, KEY_EVENT_FLAG_CANCELED,
   KEY_EVENT_FLAG_VIRTUAL_HARD_KEY, KEY_EVENT_FLAG_LONG_PRESS,
   KEY_EVENT_FLAG_CANCELED_LONG_PRESS, KEY_EVENT_FLAG_TRACKING]

/-! ## Motion event edge touch flags (input.h, lines 272-290) -/

def MOTION_EVENT_EDGE_FLAG_NONE : Int := 0

def MOTION_EVENT_EDGE_FLAG_TOP : Int := 0x01

def MOTION_EVENT_EDGE_FLAG_BOTTOM : Int := 0x02

def MOTION_EVENT_EDGE_FLAG_LEFT : Int := 0x04

def MOTION_EVENT_EDGE_FLAG_RIGHT : Int := 0x08

/-- The four edges, in declaration order. -/
def edgeFlags : List Int :=
  [MOTION_EVENT_EDGE_FLAG_TOP, MOTION_EVENT_EDGE_FLAG_BOTTOM,
   MOTION_EVENT_EDGE_FLAG_LEFT, MOTION_EVENT_EDGE_FLAG_RIGHT]

/-! ## Motion events

`struct input_event_t` is declared in the header and defined nowhere in it;
the accessors are declared and implemented by `libui`.  The record and the
three accessors below follow the data model of the specification.  Values of
C type `float` are kept in a type parameter `F`, since nothing here computes
with them. -/

/-- Modelled from the spec: the per-pointer sample of a motion event (pointer
id, x, y, pressure, normalized size); the layout of `input_event_t` is missing
from the header. -/
structure PointerSample (F : Type) where
  pointerId : Int
  x : F
  y : F
  pressure : F
  size : F

/-- Modelled from the spec: the per-pointer data of a historical sample
(x, y, pressure, size); the layout of `input_event_t` is missing from the
header. -/
structure HistoricalPointer (F : Type) where
  x : F
  y : F
  pressure : F
  size : F

/-- Modelled from the spec: one historical sample, carrying its own timestamp
and the data of every pointer; the layout of `input_event_t` is missing from
the header. -/
structure HistoricalSample (F : Type) where
  eventTime : Int
  pointers : List (HistoricalPointer F)

/-- Modelled from the spec: the motion variant of `input_event_t`, whose
definition is missing from the header.  Fields: device id, combined
action+pointer-index code, modifier state, edge flags, down and event
timestamps, x/y precision, the ordered per-pointer samples and the ordered
historical samples (oldest first).  The two data-model invariants of the spec
are carried by the record: the pointer count is at least 1, and the history is
empty unless the action (the code masked with `MOTION_EVENT_ACTION_MASK`) is
MOVE. -/
structure MotionEvent (F : Type) where
  deviceId : Int
  action : Int
  metaState : Int
  edgeFlags : Int
  downTime : Int
  eventTime : Int
  xPrecision : F
  yPrecision : F
  pointers : List (PointerSample F)
  history : List (HistoricalSample F)
  pointers_nonempty : 1 ≤ pointers.length
  history_only_on_move : actionOf action ≠ MOTION_EVENT_ACTION_MOVE → history.length = 0

/-- Modelled from the spec: `motion_event_get_action`, declared in the header
and implemented outside it; returns the combined action code and pointer
index. -/
def motion_event_get_action {F : Type} (e : MotionEvent F) : Int :=
  e.action

/-- Modelled from the spec: `motion_event_get_pointer_count`, declared in the
header and implemented outside it; the number of pointers of data contained in
the event. -/
def motion_event_get_pointer_count {F : Type} (e : MotionEvent F) : Nat :=
  e.pointers.length

/-- Modelled from the spec: `motion_event_get_history_size`, declared in the
header and implemented outside it; the number of historical samples of the
event. -/
def motion_event_get_history_size {F : Type} (e : MotionEvent F) : Nat :=
  e.history.length

/-- A POINTER_DOWN event for pointer index 1, with two pointers and no
history. -/
def samplePointerDown : MotionEvent Int where
  deviceId := 1
  action := 0x0105
  metaState := META_NONE
  edgeFlags := MOTION_EVENT_EDGE_FLAG_NONE
  downTime := 1000
  eventTime := 1500
  xPrecision := 1
  yPrecision := 1
  pointers := [⟨0, 10, 20, 1, 0⟩, ⟨1, 30, 40, 1, 0⟩]
  history := []
  pointers_nonempty := by decide
  history_only_on_move := fun _ => rfl

/-- A MOVE event with one pointer and two historical samples. -/
def sampleMove : MotionEvent Int where
  deviceId := 1
  action := MOTION_EVENT_ACTION_MOVE
  metaState := META_NONE
  edgeFlags := MOTION_EVENT_EDGE_FLAG_NONE
  downTime := 1000
  eventTime := 1600
  xPrecision := 1
  yPrecision := 1
  pointers := [⟨0, 12, 22, 1, 0⟩]
  history := [⟨1520, [⟨10, 20, 1, 0⟩]⟩, ⟨1560, [⟨11, 21, 1, 0⟩]⟩]
  pointers_nonempty := by decide
  history_only_on_move := fun h => absurd (by decide) h

/-! ## Bitwise arithmetic on `Int` -/

theorem land_natCast (m n : Nat) : Int.land (m : Int) (n : Int) = ((m &&& n : Nat) : Int) := rfl

theorem lor_natCast (m n : Nat) : Int.lor (m : Int) (n : Int) = ((m ||| n : Nat) : Int) := rfl

theorem testBit_zero_int (i : Nat) : Int.testBit 0 i = false := by
  show Nat.testBit 0 i = false
  exact Nat.zero_testBit i

/-- Two integers with the same bits are equal. -/
theorem int_eq_of_testBit_eq {x y : Int} (h : ∀ i, Int.testBit x i = Int.testBit y i) :
    x = y := by
  have big : ∀ m n : Nat, Nat.testBit m (m + n) = false ∧ Nat.testBit n (m + n) = false := by
    intro m n
    constructor
    · exact Nat.testBit_lt_two_pow
        (lt_of_le_of_lt (Nat.le_add_right m n) (Nat.lt_two_pow (m + n)))
    · exact Nat.testBit_lt_two_pow
        (lt_of_le_of_lt (Nat.le_add_left n m) (Nat.lt_two_pow (m + n)))
  cases x with
  | ofNat m =>
    cases y with
    | ofNat n =>
      exact congrArg Int.ofNat (Nat.eq_of_testBit_eq h)
    | negSucc n =>
      have h1 := h (m + n)
      simp only [Int.testBit, (big m n).1, (big m n).2] at h1
      exact absurd h1 (by decide)
  | negSucc m =>
    cases y with
    | ofNat n =>
      have h1 := h (m + n)
      simp only [Int.testBit, (big m n).1, (big m n).2] at h1
      exact absurd h1 (by decide)
    | negSucc n =>
      refine congrArg Int.negSucc (Nat.eq_of_testBit_eq fun i => ?_)
      have h1 := h i
      simp only [Int.testBit] at h1
      cases hm : Nat.testBit m i <;> cases hn : Nat.testBit n i <;> simp_all

theorem land_assoc_int (a b c : Int) :
    Int.land (Int.land a b) c = Int.land a (Int.land b c) := by
  apply int_eq_of_testBit_eq
  intro i
  simp only [Int.testBit_land, Bool.and_assoc]

theorem land_lor_distrib_int (a b c : Int) :
    Int.land a (Int.lor b c) = Int.lor (Int.land a b) (Int.land a c) := by
  apply int_eq_of_testBit_eq
  intro i
  simp only [Int.testBit_land, Int.testBit_lor, Bool.and_or_distrib_left]

theorem lor_land_distrib_int (a b c : Int) :
    Int.land (Int.lor a b) c = Int.lor (Int.land a c) (Int.land b c) := by
  apply int_eq_of_testBit_eq
  intro i
  simp only [Int.testBit_land, Int.testBit_lor, Bool.and_or_distrib_right]

theorem land_zero_int (a : Int) : Int.land a 0 = 0 := by
  apply int_eq_of_testBit_eq
  intro i
  simp only [Int.testBit_land, testBit_zero_int, Bool.and_false]

theorem zero_land_int (a : Int) : Int.land 0 a = 0 := by
  apply int_eq_of_testBit_eq
  intro i
  simp only [Int.testBit_land, testBit_zero_int, Bool.false_and]

theorem lor_zero_int (a : Int) : Int.lor a 0 = a := by
  apply int_eq_of_testBit_eq
  intro i
  simp only [Int.testBit_lor, testBit_zero_int, Bool.or_false]

/-- A mask disjoint from `m` sees nothing of `s & m`. -/
theorem land_land_of_disjoint (s : Int) {m n : Int} (h : Int.land m n = 0) :
    Int.land (Int.land s m) n = 0 := by
  rw [land_assoc_int, h, land_zero_int]

/-- Switching on the bits of `m` does not change what a disjoint mask sees. -/
theorem land_lor_of_disjoint (s : Int) {m n : Int} (h : Int.land m n = 0) :
    Int.land (Int.lor s m) n = Int.land s n := by
  rw [lor_land_distrib_int, h, lor_zero_int]

theorem testBit_of_lt_256 {a i : Nat} (ha : a < 256) (hi : 8 ≤ i) : a.testBit i = false := by
  apply Nat.testBit_lt_two_pow
  calc a < 2 ^ 8 := ha
    _ ≤ 2 ^ i := Nat.pow_le_pow_right (by decide) hi

theorem nat_pack_action (a p : Nat) (ha : a < 256) : (p <<< 8 ||| a) &&& 255 = a := by
  apply Nat.eq_of_testBit_eq
  intro i
  have h255 : (255 : Nat) = 2 ^ 8 - 1 := by decide
  rw [h255, Nat.testBit_and, Nat.testBit_or, Nat.testBit_shiftLeft, Nat.testBit_two_pow_sub_one]
  by_cases hi : i < 8
  · have : ¬ (i ≥ 8) := by omega
    simp [hi, this]
  · simp [hi, testBit_of_lt_256 ha (by omega : 8 ≤ i)]

theorem nat_pack_index (a p : Nat) (ha : a < 256) (hp : p < 256) :
    ((p <<< 8 ||| a) &&& 65280) >>> 8 = p := by
  apply Nat.eq_of_testBit_eq
  intro i
  have h : (65280 : Nat) = (2 ^ 8 - 1) <<< 8 := by decide
  rw [Nat.testBit_shiftRight, h, Nat.testBit_and, Nat.testBit_or, Nat.testBit_shiftLeft,
    Nat.testBit_shiftLeft, Nat.testBit_two_pow_sub_one]
  have h8 : 8 + i ≥ 8 := by omega
  have hs : 8 + i - 8 = i := by omega
  simp only [h8, hs, decide_True, Bool.true_and, testBit_of_lt_256 ha h8, Bool.or_false]
  by_cases hi : i < 8
  · simp [hi]
  · simp [hi, testBit_of_lt_256 hp (by omega : 8 ≤ i)]

theorem nat_pack_lt (a p : Nat) (ha : a < 256) (hp : p < 256) : p <<< 8 ||| a < 2 ^ 16 := by
  apply Nat.or_lt_two_pow
  · rw [Nat.shiftLeft_eq]
    omega
  · omega

theorem packAction_natCast (p a : Nat) :
    packAction (p : Int) (a : Int) = ((p <<< 8 ||| a : Nat) : Int) := by
  unfold packAction MOTION_EVENT_ACTION_POINTER_INDEX_SHIFT
  rw [show (8 : Int) = ((8 : Nat) : Int) from rfl, Int.shiftLeft_coe_nat, lor_natCast]

/-! ## Motion action codes -/

/-- C1: decoding a combined motion action code undoes its packing.  For every
action `a` and pointer index `p` in `0..255`, the code
`c = (p << MOTION_EVENT_ACTION_POINTER_INDEX_SHIFT) | a` lies in `0..0xFFFF`
(so the shift does not overflow an `int32_t`), `c & MOTION_EVENT_ACTION_MASK = a`
and `(c & MOTION_EVENT_ACTION_POINTER_INDEX_MASK) >> MOTION_EVENT_ACTION_POINTER_INDEX_SHIFT = p`;
in particular `0x0105` is the packing of pointer index 1 with
`MOTION_EVENT_ACTION_POINTER_DOWN` and decodes to action 5 and pointer index 1. -/
theorem motion_action_decode_pack (a p : Int) (ha0 : 0 ≤ a) (ha : a ≤ 255)
    (hp0 : 0 ≤ p) (hp : p ≤ 255) :
    (0 ≤ packAction p a ∧ packAction p a ≤ 0xFFFF) ∧
    actionOf (packAction p a) = a ∧ pointerIndexOf (packAction p a) = p ∧
    packAction 1 MOTION_EVENT_ACTION_POINTER_DOWN = 0x0105 ∧
    actionOf 0x0105 = 5 ∧ MOTION_EVENT_ACTION_POINTER_DOWN = 5 ∧ pointerIndexOf 0x0105 = 1 := by
  obtain ⟨n, rfl⟩ := Int.eq_ofNat_of_zero_le ha0
  obtain ⟨m, rfl⟩ := Int.eq_ofNat_of_zero_le hp0
  have hn : n < 256 := by omega
  have hm : m < 256 := by omega
  have hlt := nat_pack_lt n m hn hm
  refine ⟨?_, ?_, ?_, by decide, by decide, by decide, by decide⟩
  · rw [packAction_natCast]
    constructor
    · exact Int.ofNat_nonneg _
    · have : ((m <<< 8 ||| n : Nat) : Int) < ((2 ^ 16 : Nat) : Int) := Int.ofNat_lt.mpr hlt
      omega
  · rw [packAction_natCast]
    unfold actionOf MOTION_EVENT_ACTION_MASK
    rw [show (0xff : Int) = ((255 : Nat) : Int) from rfl, land_natCast, nat_pack_action n m hn]
  · rw [packAction_natCast]
    unfold pointerIndexOf MOTION_EVENT_ACTION_POINTER_INDEX_MASK
      MOTION_EVENT_ACTION_POINTER_INDEX_SHIFT
    rw [show (0xff00 : Int) = ((65280 : Nat) : Int) from rfl, land_natCast,
      show (8 : Int) = ((8 : Nat) : Int) from rfl, Int.shiftRight_coe_nat,
      nat_pack_index n m hn hm]

/-- Witness of C1 at action 6 (POINTER_UP) and pointer index 3. -/
theorem motion_action_decode_pack_witness :
    ((0 : Int) ≤ 6 ∧ (6 : Int) ≤ 255 ∧ (0 : Int) ≤ 3 ∧ (3 : Int) ≤ 255) ∧
    packAction 3 6 = 0x0306 ∧ actionOf (packAction 3 6) = 6 ∧
    pointerIndexOf (packAction 3 6) = 3 :=
  ⟨by decide, by decide,
    (motion_action_decode_pack 6 3 (by decide) (by decide) (by decide) (by decide)).2.1,
    (motion_action_decode_pack 6 3 (by decide) (by decide) (by decide) (by decide)).2.2.1⟩

/-- C2: the motion action constants are mask = 0xFF, pointer-index shift = 8,
DOWN = 0, UP = 1, MOVE = 2, CANCEL = 3, OUTSIDE = 4, POINTER_DOWN = 5,
POINTER_UP = 6; the seven named actions are pairwise distinct and each one is
unchanged by masking with `MOTION_EVENT_ACTION_MASK`. -/
theorem motion_action_constants :
    MOTION_EVENT_ACTION_MASK = 0xFF ∧ MOTION_EVENT_ACTION_POINTER_INDEX_SHIFT = 8 ∧
    MOTION_EVENT_ACTION_DOWN = 0 ∧ MOTION_EVENT_ACTION_UP = 1 ∧
    MOTION_EVENT_ACTION_MOVE = 2 ∧ MOTION_EVENT_ACTION_CANCEL = 3 ∧
    MOTION_EVENT_ACTION_OUTSIDE = 4 ∧ MOTION_EVENT_ACTION_POINTER_DOWN = 5 ∧
    MOTION_EVENT_ACTION_POINTER_UP = 6 ∧
    motionEventActions.length = 7 ∧
    motionEventActions.Pairwise (fun x y => x ≠ y) ∧
    ∀ x ∈ motionEventActions, Int.land x MOTION_EVENT_ACTION_MASK = x := by
  decide

/-! ## Key event flags -/

/-- C3, as stated, fails: the key event flag enum does not consist of nine
flags running from `KEY_EVENT_FLAG_WOKE_HERE = 0x1` to
`KEY_EVENT_FLAG_TRACKING = 0x200`, because it has ten enumerators. -/
theorem key_event_flags_not_nine :
    ¬ (keyEventFlags.length = 9 ∧
      KEY_EVENT_FLAG_WOKE_HERE = 0x1 ∧ (∀ f ∈ keyEventFlags, KEY_EVENT_FLAG_WOKE_HERE ≤ f) ∧
      KEY_EVENT_FLAG_TRACKING = 0x200 ∧ (∀ f ∈ keyEventFlags, f ≤ KEY_EVENT_FLAG_TRACKING)) := by
  decide

/-- C3, amended: the key event flag group consists of exactly 10 pairwise
distinct flags (the single bits 0 to 9), the lowest being
`KEY_EVENT_FLAG_WOKE_HERE = 0x1` and the highest `KEY_EVENT_FLAG_TRACKING = 0x200`. -/
theorem key_event_flags_ten :
    keyEventFlags.length = 10 ∧
    keyEventFlags.Pairwise (fun x y => x ≠ y) ∧
    keyEventFlags = (List.range 10).map (fun k => (2 : Int) ^ k) ∧
    KEY_EVENT_FLAG_WOKE_HERE ∈ keyEventFlags ∧ KEY_EVENT_FLAG_WOKE_HERE = 0x1 ∧
    (∀ f ∈ keyEventFlags, KEY_EVENT_FLAG_WOKE_HERE ≤ f) ∧
    KEY_EVENT_FLAG_TRACKING ∈ keyEventFlags ∧ KEY_EVENT_FLAG_TRACKING = 0x200 ∧
    (∀ f ∈ keyEventFlags, f ≤ KEY_EVENT_FLAG_TRACKING) := by
  decide

/-! ## Motion event invariants -/

/-- C4: for every motion event, `motion_event_get_pointer_count` returns a
value of at least 1. -/
theorem motion_event_pointer_count_ge_one {F : Type} (e : MotionEvent F) :
    motion_event_get_pointer_count e ≥ 1 :=
  e.pointers_nonempty

/-- C5: for every motion event whose action (the code returned by
`motion_event_get_action`, masked with `MOTION_EVENT_ACTION_MASK`) is not
`MOTION_EVENT_ACTION_MOVE`, `motion_event_get_history_size` returns 0. -/
theorem motion_event_history_size_zero_of_not_move {F : Type} (e : MotionEvent F)
    (h : actionOf (motion_event_get_action e) ≠ MOTION_EVENT_ACTION_MOVE) :
    motion_event_get_history_size e = 0 :=
  e.history_only_on_move h

/-- Witness of C5 at a POINTER_DOWN event with two pointers. -/
theorem motion_event_history_size_zero_of_not_move_witness :
    actionOf (motion_event_get_action samplePointerDown) = MOTION_EVENT_ACTION_POINTER_DOWN ∧
    actionOf (motion_event_get_action samplePointerDown) ≠ MOTION_EVENT_ACTION_MOVE ∧
    motion_event_get_history_size samplePointerDown = 0 :=
  ⟨by decide, by decide,
    motion_event_history_size_zero_of_not_move samplePointerDown (by decide)⟩

/-! ## Meta state -/

theorem metaMasks_disjoint :
    ∀ m ∈ metaMasks, ∀ n ∈ metaMasks, m ≠ n → Int.land m n = 0 := by
  decide

/-- C6: the meta state constants are NONE = 0, SHIFT_ON = 0x1, ALT_ON = 0x2,
SYM_ON = 0x4, ALT_LEFT_ON = 0x10, ALT_RIGHT_ON = 0x20, SHIFT_LEFT_ON = 0x40,
SHIFT_RIGHT_ON = 0x80; the seven non-zero masks are single bits, pairwise
disjoint, and testing a meta state against one mask never reports another:
for every state `s` and distinct masks `m`, `n`, the result `s & m` has no bit
of `n`, a state consisting of `m` alone tests false against `n`, and switching
`m` on in `s` leaves the test against `n` unchanged. -/
theorem meta_state_constants :
    (META_NONE = 0 ∧ META_SHIFT_ON = 0x1 ∧ META_ALT_ON = 0x2 ∧ META_SYM_ON = 0x4 ∧
      META_ALT_LEFT_ON = 0x10 ∧ META_ALT_RIGHT_ON = 0x20 ∧ META_SHIFT_LEFT_ON = 0x40 ∧
      META_SHIFT_RIGHT_ON = 0x80) ∧
    metaMasks.length = 7 ∧
    (∀ m ∈ metaMasks, ∃ k, k < 8 ∧ m = 2 ^ k) ∧
    metaMasks.Pairwise (fun m n => Int.land m n = 0) ∧
    (∀ s : Int, ∀ m ∈ metaMasks, ∀ n ∈ metaMasks, m ≠ n →
      Int.land (Int.land s m) n = 0 ∧ metaTest m n = false ∧
      metaTest (Int.lor s m) n = metaTest s n) := by
  refine ⟨by decide, by decide, by decide, by decide, ?_⟩
  intro s m hm n hn hmn
  have hd := metaMasks_disjoint m hm n hn hmn
  refine ⟨land_land_of_disjoint s hd, ?_, ?_⟩
  · simp [metaTest, hd]
  · simp only [metaTest, land_lor_of_disjoint s hd]

/-! ## Device classes -/

theorem testBit_foldl_lor (l : List DeviceClass) (acc : Int) (i : Nat) :
    Int.testBit (l.foldl (fun a c => Int.lor a c.value) acc) i =
      (Int.testBit acc i || l.any (fun c => Int.testBit c.value i)) := by
  induction l generalizing acc with
  | nil => simp
  | cons c l ih => simp only [List.foldl_cons, ih, Int.testBit_lor, List.any_cons, Bool.or_assoc]

theorem testBit_deviceClassMask (l : List DeviceClass) (i : Nat) :
    Int.testBit (deviceClassMask l) i = l.any (fun c => Int.testBit c.value i) := by
  unfold deviceClassMask
  rw [testBit_foldl_lor, testBit_zero_int, Bool.false_or]

theorem testBit_value_bitIndex (c d : DeviceClass) :
    Int.testBit c.value d.bitIndex = decide (c = d) := by
  cases c <;> cases d <;> decide

theorem testBit_value_high (c : DeviceClass) {i : Nat} (hi : 6 ≤ i) :
    Int.testBit c.value i = false := by
  have h64 : ∀ n : Nat, n < 64 → Nat.testBit n i = false := fun n hn =>
    Nat.testBit_lt_two_pow
      (lt_of_lt_of_le (show n < 2 ^ 6 from hn) (Nat.pow_le_pow_right (show 0 < 2 by decide) hi))
  cases c
  · exact h64 1 (by decide)
  · exact h64 2 (by decide)
  · exact h64 4 (by decide)
  · exact h64 8 (by decide)
  · exact h64 16 (by decide)
  · exact h64 32 (by decide)

theorem exists_bitIndex {i : Nat} (hi : i < 6) : ∃ d : DeviceClass, d.bitIndex = i := by
  interval_cases i
  · exact ⟨.keyboard, rfl⟩
  · exact ⟨.alphakey, rfl⟩
  · exact ⟨.touchscreen, rfl⟩
  · exact ⟨.trackball, rfl⟩
  · exact ⟨.touchscreenMt, rfl⟩
  · exact ⟨.dpad, rfl⟩

/-- A class is in the collection exactly when its bit is set in the mask. -/
theorem mem_iff_testBit_deviceClassMask (l : List DeviceClass) (d : DeviceClass) :
    d ∈ l ↔ Int.testBit (deviceClassMask l) d.bitIndex = true := by
  rw [testBit_deviceClassMask]
  simp [testBit_value_bitIndex]

/-- C7: the device class constants are KEYBOARD = 0x1, ALPHAKEY = 0x2,
TOUCHSCREEN = 0x4, TRACKBALL = 0x8, TOUCHSCREEN_MT = 0x10, DPAD = 0x20, and for
every two collections of device classes the bitwise OR of their constants is
equal exactly when the collections have the same members (are equal as sets). -/
theorem device_class_mask_eq_iff :
    (INPUT_DEVICE_CLASS_KEYBOARD = 0x1 ∧ INPUT_DEVICE_CLASS_ALPHAKEY = 0x2 ∧
      INPUT_DEVICE_CLASS_TOUCHSCREEN = 0x4 ∧ INPUT_DEVICE_CLASS_TRACKBALL = 0x8 ∧
      INPUT_DEVICE_CLASS_TOUCHSCREEN_MT = 0x10 ∧ INPUT_DEVICE_CLASS_DPAD = 0x20) ∧
    ∀ l₁ l₂ : List DeviceClass,
      deviceClassMask l₁ = deviceClassMask l₂ ↔ ∀ c, c ∈ l₁ ↔ c ∈ l₂ := by
  refine ⟨by decide, ?_⟩
  intro l₁ l₂
  constructor
  · intro h d
    rw [mem_iff_testBit_deviceClassMask, mem_iff_testBit_deviceClassMask, h]
  · intro h
    apply int_eq_of_testBit_eq
    intro i
    by_cases hi : i < 6
    · obtain ⟨d, rfl⟩ := exists_bitIndex hi
      have hd := h d
      rw [mem_iff_testBit_deviceClassMask, mem_iff_testBit_deviceClassMask] at hd
      exact Bool.eq_iff_iff.mpr hd
    · have hhigh : ∀ l : List DeviceClass, Int.testBit (deviceClassMask l) i = false := by
        intro l
        rw [testBit_deviceClassMask, List.any_eq_false]
        intro c _
        simp [testBit_value_high c (Nat.le_of_not_lt hi)]
      rw [hhigh l₁, hhigh l₂]

/-! ## Key event actions -/

/-- C8: the key event action constants are KEY_EVENT_ACTION_DOWN = 0,
KEY_EVENT_ACTION_UP = 1, KEY_EVENT_ACTION_MULTIPLE = 2, and are pairwise
distinct. -/
theorem key_event_action_constants :
    KEY_EVENT_ACTION_DOWN = 0 ∧ KEY_EVENT_ACTION_UP = 1 ∧ KEY_EVENT_ACTION_MULTIPLE = 2 ∧
    keyEventActions.length = 3 ∧ keyEventActions.Pairwise (fun x y => x ≠ y) := by
  decide

/-! ## Edge flags -/

theorem edgeFlags_land_mask : ∀ m ∈ edgeFlags, Int.land 0xF m = m := by
  decide

/-- C9: the edge flag constants are NONE = 0, TOP = 0x1, BOTTOM = 0x2,
LEFT = 0x4, RIGHT = 0x8; the four edges are single bits, pairwise disjoint, and
an edge-flag bitfield has no edge bit set exactly when it equals NONE after
masking with 0xF. -/
theorem edge_flag_constants :
    (MOTION_EVENT_EDGE_FLAG_NONE = 0 ∧ MOTION_EVENT_EDGE_FLAG_TOP = 0x1 ∧
      MOTION_EVENT_EDGE_FLAG_BOTTOM = 0x2 ∧ MOTION_EVENT_EDGE_FLAG_LEFT = 0x4 ∧
      MOTION_EVENT_EDGE_FLAG_RIGHT = 0x8) ∧
    edgeFlags.length = 4 ∧
    (∀ m ∈ edgeFlags, ∃ k, k < 4 ∧ m = 2 ^ k) ∧
    edgeFlags.Pairwise (fun m n => Int.land m n = 0) ∧
    (∀ f : Int, (∀ m ∈ edgeFlags, Int.land f m = 0) ↔
      Int.land f 0xF = MOTION_EVENT_EDGE_FLAG_NONE) := by
  refine ⟨by decide, by decide, by decide, by decide, ?_⟩
  intro f
  have hmask : (0xF : Int) =
      Int.lor (Int.lor (Int.lor MOTION_EVENT_EDGE_FLAG_TOP MOTION_EVENT_EDGE_FLAG_BOTTOM)
        MOTION_EVENT_EDGE_FLAG_LEFT) MOTION_EVENT_EDGE_FLAG_RIGHT := by decide
  constructor
  · intro h
    have ht := h MOTION_EVENT_EDGE_FLAG_TOP (by decide)
    have hb := h MOTION_EVENT_EDGE_FLAG_BOTTOM (by decide)
    have hl := h MOTION_EVENT_EDGE_FLAG_LEFT (by decide)
    have hr := h MOTION_EVENT_EDGE_FLAG_RIGHT (by decide)
    rw [hmask, land_lor_distrib_int, land_lor_distrib_int, land_lor_distrib_int,
      ht, hb, hl, hr]
    decide
  · intro h m hm
    rw [← edgeFlags_land_mask m hm, ← land_assoc_int, h]
    exact zero_land_int m

/-! ## Key states -/

/-- C10: the key state constants are KEY_STATE_UNKNOWN = -1, KEY_STATE_UP = 0,
KEY_STATE_DOWN = 1, KEY_STATE_VIRTUAL = 2; each fits a 32-bit signed integer,
and they are pairwise distinct, both as integers and as 32-bit two's
complement bit patterns. -/
theorem key_state_constants :
    KEY_STATE_UNKNOWN = -1 ∧ KEY_STATE_UP = 0 ∧ KEY_STATE_DOWN = 1 ∧ KEY_STATE_VIRTUAL = 2 ∧
    keyStates.length = 4 ∧
    (∀ x ∈ keyStates, isInt32 x) ∧
    keyStates.Pairwise (fun x y => x ≠ y) ∧
    (keyStates.map int32Bits).Pairwise (fun x y => x ≠ y) ∧
    int32Bits KEY_STATE_UNKNOWN = 0xFFFFFFFF := by
  decide

/-! ## The two motion action masks on arbitrary codes -/

theorem nat_ldiff_low_mask (n k : Nat) :
    Nat.ldiff (2 ^ k - 1) n = 2 ^ k - (n % 2 ^ k + 1) := by
  apply Nat.eq_of_testBit_eq
  intro i
  rw [Nat.testBit_ldiff, Nat.testBit_two_pow_sub_one,
    Nat.testBit_two_pow_sub_succ (Nat.mod_lt n (Nat.two_pow_pos k)), Nat.testBit_mod_two_pow]
  cases decide (i < k) <;> cases Nat.testBit n i <;> rfl

/-- Masking an integer with the low `k` bits is reduction modulo `2 ^ k`, for
negative integers too. -/
theorem land_low_mask (c : Int) (k : Nat) :
    Int.land c ((2 ^ k - 1 : Nat) : Int) = c % ((2 ^ k : Nat) : Int) := by
  cases c with
  | ofNat n =>
    show ((n &&& (2 ^ k - 1) : Nat) : Int) = (n : Int) % ((2 ^ k : Nat) : Int)
    rw [Nat.and_pow_two_sub_one_eq_mod, Int.ofNat_emod]
  | negSucc n =>
    show ((Nat.ldiff (2 ^ k - 1) n : Nat) : Int) = Int.negSucc n % ((2 ^ k : Nat) : Int)
    have hpos : (0 : Int) < ((2 ^ k : Nat) : Int) := Int.ofNat_lt.mpr (Nat.two_pow_pos k)
    have hlt : n % 2 ^ k < 2 ^ k := Nat.mod_lt n (Nat.two_pow_pos k)
    rw [Int.negSucc_emod n hpos, nat_ldiff_low_mask, ← Int.ofNat_emod]
    omega

/-- The decoded action is the low byte of the code. -/
theorem actionOf_eq_emod (c : Int) : actionOf c = c % 256 :=
  land_low_mask c 8

theorem land_0xFFFF_eq_emod (c : Int) : Int.land c 0xFFFF = c % 65536 :=
  land_low_mask c 16

theorem nat_index_byte (m : Nat) : (m &&& 65280) >>> 8 = m / 256 % 256 := by
  apply Nat.eq_of_testBit_eq
  intro i
  have h : (65280 : Nat) = (2 ^ 8 - 1) <<< 8 := by decide
  have h256 : (256 : Nat) = 2 ^ 8 := by decide
  have h8 : 8 + i ≥ 8 := by omega
  have hs : 8 + i - 8 = i := by omega
  rw [Nat.testBit_shiftRight, h, Nat.testBit_and, Nat.testBit_shiftLeft,
    Nat.testBit_two_pow_sub_one, h256, Nat.testBit_mod_two_pow, ← Nat.shiftRight_eq_div_pow,
    Nat.testBit_shiftRight, hs]
  simp only [h8, decide_True, Bool.true_and]
  cases decide (i < 8) <;> cases Nat.testBit m (8 + i) <;> rfl

/-- The code masked with the pointer index mask, through the low 16 bits of
the code seen as a natural number. -/
theorem land_index_mask_natCast (c : Int) :
    ∃ m : Nat, (m : Int) = c % 65536 ∧
      Int.land c MOTION_EVENT_ACTION_POINTER_INDEX_MASK = ((m &&& 65280 : Nat) : Int) := by
  have hnn : 0 ≤ c % 65536 := Int.emod_nonneg c (by decide)
  obtain ⟨m, hm⟩ := Int.eq_ofNat_of_zero_le hnn
  refine ⟨m, hm.symm, ?_⟩
  rw [← land_natCast, ← hm, ← land_0xFFFF_eq_emod, land_assoc_int]
  rfl

/-- The decoded pointer index is the second byte of the code. -/
theorem pointerIndexOf_eq (c : Int) : pointerIndexOf c = c / 256 % 256 := by
  obtain ⟨m, hm, hmask⟩ := land_index_mask_natCast c
  unfold pointerIndexOf
  rw [hmask]
  unfold MOTION_EVENT_ACTION_POINTER_INDEX_SHIFT
  rw [show (8 : Int) = ((8 : Nat) : Int) from rfl, Int.shiftRight_coe_nat, nat_index_byte]
  have hcast : ((m / 256 % 256 : Nat) : Int) = (m : Int) / 256 % 256 := by
    rw [Int.ofNat_emod, Int.ofNat_ediv]
    rfl
  rw [hcast, hm]
  omega

theorem land_index_mask_range (c : Int) :
    0 ≤ Int.land c MOTION_EVENT_ACTION_POINTER_INDEX_MASK ∧
      Int.land c MOTION_EVENT_ACTION_POINTER_INDEX_MASK ≤ 0xFF00 := by
  obtain ⟨m, _, hmask⟩ := land_index_mask_natCast c
  rw [hmask]
  have hle : m &&& 65280 ≤ 65280 := Nat.and_le_right
  constructor
  · exact Int.ofNat_nonneg _
  · have : ((m &&& 65280 : Nat) : Int) ≤ ((65280 : Nat) : Int) := Int.ofNat_le.mpr hle
    omega

/-- C11: the two motion action masks split the low 16 bits of the action
code: `MOTION_EVENT_ACTION_MASK & MOTION_EVENT_ACTION_POINTER_INDEX_MASK = 0`,
`MOTION_EVENT_ACTION_POINTER_INDEX_MASK = MOTION_EVENT_ACTION_MASK <<
MOTION_EVENT_ACTION_POINTER_INDEX_SHIFT`, and together they make `0xFFFF`.
Hence for every integer action code `c` (so for every 32-bit signed one,
negative codes included) the shift is applied to a value in `0..0xFF00`, the
decoded action `c & MOTION_EVENT_ACTION_MASK` and the decoded pointer index
`(c & MOTION_EVENT_ACTION_POINTER_INDEX_MASK) >> MOTION_EVENT_ACTION_POINTER_INDEX_SHIFT`
both lie in `0..255`, and both depend only on `c & 0xFFFF`: they are the low
and the second byte of the 32-bit pattern of `c`, and two codes that agree on
`c & 0xFFFF` decode alike.  The codes `-1` and `-2^31` decode to (255, 255)
and (0, 0). -/
theorem motion_action_masks_split :
    Int.land MOTION_EVENT_ACTION_MASK MOTION_EVENT_ACTION_POINTER_INDEX_MASK = 0 ∧
    MOTION_EVENT_ACTION_POINTER_INDEX_MASK =
      MOTION_EVENT_ACTION_MASK <<< MOTION_EVENT_ACTION_POINTER_INDEX_SHIFT ∧
    Int.lor MOTION_EVENT_ACTION_MASK MOTION_EVENT_ACTION_POINTER_INDEX_MASK = 0xFFFF ∧
    (∀ c : Int,
      (0 ≤ Int.land c MOTION_EVENT_ACTION_POINTER_INDEX_MASK ∧
        Int.land c MOTION_EVENT_ACTION_POINTER_INDEX_MASK ≤ 0xFF00) ∧
      (0 ≤ actionOf c ∧ actionOf c ≤ 255) ∧
      (0 ≤ pointerIndexOf c ∧ pointerIndexOf c ≤ 255) ∧
      actionOf c = actionOf (Int.land c 0xFFFF) ∧
      pointerIndexOf c = pointerIndexOf (Int.land c 0xFFFF) ∧
      actionOf c = int32Bits c % 256 ∧ pointerIndexOf c = int32Bits c / 256 % 256) ∧
    (∀ c d : Int, Int.land c 0xFFFF = Int.land d 0xFFFF →
      actionOf c = actionOf d ∧ pointerIndexOf c = pointerIndexOf d) ∧
    (isInt32 (-1) ∧ actionOf (-1) = 255 ∧ pointerIndexOf (-1) = 255) ∧
    (isInt32 (-2 ^ 31) ∧ actionOf (-2 ^ 31) = 0 ∧ pointerIndexOf (-2 ^ 31) = 0) := by
  refine ⟨by decide, by decide, by decide, ?_, ?_,
    ⟨by decide, by rw [actionOf_eq_emod]; decide, by rw [pointerIndexOf_eq]; decide⟩,
    ⟨by decide, by rw [actionOf_eq_emod]; decide, by rw [pointerIndexOf_eq]; decide⟩⟩
  · intro c
    refine ⟨land_index_mask_range c, ?_⟩
    rw [actionOf_eq_emod, pointerIndexOf_eq, actionOf_eq_emod, pointerIndexOf_eq,
      land_0xFFFF_eq_emod]
    unfold int32Bits
    refine ⟨?_, ?_, ?_, ?_, ?_, ?_⟩ <;> omega
  · intro c d h
    rw [land_0xFFFF_eq_emod, land_0xFFFF_eq_emod] at h
    rw [actionOf_eq_emod, pointerIndexOf_eq, actionOf_eq_emod, pointerIndexOf_eq]
    constructor <;> omega

end AndroidInput
